/-
Verification of `demo/Diffusion/ort_trt.py` (Stable Diffusion ORT-TRT
benchmarking script).

Shallow embedding: tensors are modelled as records carrying a framework tag
(torch / numpy), a dtype tag, a shape, and flat data over `ℚ`.  Numeric
rounding of dtype casts is not modelled (casts change only the dtype tag);
none of the verified properties depend on rounding.  The opaque external
dependencies (the CLIP tokenizer, the three `InferenceSession`s, the
scheduler imported from `utilities`, `measure_memory`) are modelled as an
environment of functions, with their narrow call/response contracts stated
as hypotheses where a claim needs them.  `run_pipeline` and `main` are
embedded as functions producing a trace of observable events (session
loads and runs, tokenizer calls, scheduler steps, latency printing, image
saving); timers, `tqdm` progress bars, `torch.cuda.synchronize`,
`torch.inference_mode` / `torch.autocast` and environment-variable setup
are instrumentation with no observable effect in this model.
-/
import Mathlib

namespace OrtTrt

/-! ## Dtype and framework tags -/

/-- Dtype tags for the numpy/torch dtypes the script manipulates. -/
inductive DType where
  | i32
  | f16
  | f32
deriving DecidableEq, Repr

/-- Framework tag: a `torch.Tensor` or a `numpy.ndarray`. -/
inductive Kind where
  | torch
  | numpy
deriving DecidableEq, Repr

/-- A tensor: framework tag, dtype tag, shape, and flat row-major data. -/
structure Tens where
  kind : Kind
  dtype : DType
  shape : List Nat
  data : List ℚ
deriving DecidableEq, Repr

/-- Dtype cast `torch.Tensor.type(d)`: only the dtype tag changes
(rounding is not modelled). -/
def castTo (t : Tens) (d : DType) : Tens := { t with dtype := d }

/-- Numpy cast `ndarray.astype(d)`: only the dtype tag changes. -/
def astypeT (t : Tens) (d : DType) : Tens := { t with dtype := d }

/-- Model of `to_np(tensor, new_dtype)` from the script: a torch tensor is moved to
numpy (`detach().cpu().numpy()` preserves dtype and data), then `astype`
is applied only when the dtype differs. -/
def to_np (t : Tens) (d : DType) : Tens :=
  let t1 := if t.kind = Kind.torch then { t with kind := Kind.numpy } else t
  if t1.dtype ≠ d then astypeT t1 d else t1

/-- Model of `to_pt(tensor, new_dtype)` from the script: a numpy array is wrapped by
`torch.from_numpy` (dtype and data preserved), then `.type` is applied only
when the dtype differs. -/
def to_pt (t : Tens) (d : DType) : Tens :=
  let t1 := if t.kind = Kind.numpy then { t with kind := Kind.torch } else t
  if t1.dtype ≠ d then castTo t1 d else t1

/-- Zero array `np.zeros(s, dtype=d)`. -/
def npZeros (s : List Nat) (d : DType) : Tens :=
  ⟨Kind.numpy, d, s, List.replicate s.prod 0⟩

/-- Scalar multiplication `c * t` (elementwise). -/
def smulT (c : ℚ) (t : Tens) : Tens :=
  { t with data := t.data.map (fun x => c * x) }

/-- Elementwise addition (shapes agree at every use site). -/
def addT (a b : Tens) : Tens :=
  ⟨a.kind, a.dtype, a.shape, List.zipWith (fun x y => x + y) a.data b.data⟩

/-- Elementwise subtraction. -/
def subT (a b : Tens) : Tens :=
  ⟨a.kind, a.dtype, a.shape, List.zipWith (fun x y => x - y) a.data b.data⟩

/-- Concatenation `torch.cat([t] * 2)`: doubles the leading dimension, data repeated. -/
def catSelf2 (t : Tens) : Tens :=
  ⟨t.kind, t.dtype, 2 * t.shape.headD 0 :: t.shape.drop 1, t.data ++ t.data⟩

/-- Concatenation `torch.cat([a, b])` along dimension 0. -/
def catT (a b : Tens) : Tens :=
  ⟨a.kind, a.dtype, (a.shape.headD 0 + b.shape.headD 0) :: a.shape.drop 1,
    a.data ++ b.data⟩

/-- Chunking `t.chunk(2)`: split along dimension 0 into a first chunk of
`⌈n/2⌉` rows and a second chunk with the remaining rows. -/
def chunk2 (t : Tens) : Tens × Tens :=
  let n := t.shape.headD 0
  let half := (n + 1) / 2
  let row := (t.shape.drop 1).prod
  (⟨t.kind, t.dtype, half :: t.shape.drop 1, t.data.take (half * row)⟩,
   ⟨t.kind, t.dtype, (n - half) :: t.shape.drop 1, t.data.drop (half * row)⟩)

/-- Tiling `t.repeat(1, ni, 1)` on a rank-3 tensor: each leading-index block is
tiled `ni` times along dimension 1.  (The script only applies this to the
rank-3 CLIP output; other ranks would raise in torch and are returned
unchanged here.) -/
def repeatDim1 (t : Tens) (ni : Nat) : Tens :=
  match t.shape with
  | [b, l, h] =>
      ⟨t.kind, t.dtype, [b, l * ni, h],
        (((t.data.toChunks (l * h)).map
            (fun blk => (List.replicate ni blk).flatten)).flatten)⟩
  | _ => t

/-- Reshape `t.view(a, b, -1)`: with the last dimension inferred. -/
def viewInfer (t : Tens) (a b : Nat) : Tens :=
  ⟨t.kind, t.dtype, [a, b, t.data.length / (a * b)], t.data⟩

/-! ## Basic lemmas about the tensor operations -/

theorem to_np_dtype (t : Tens) (d : DType) : (to_np t d).dtype = d := by
  unfold to_np astypeT
  by_cases hk : t.kind = Kind.torch <;> by_cases hd : t.dtype = d <;>
    simp [hk, hd]

theorem to_np_shape (t : Tens) (d : DType) : (to_np t d).shape = t.shape := by
  unfold to_np astypeT
  by_cases hk : t.kind = Kind.torch <;> by_cases hd : t.dtype = d <;>
    simp [hk, hd]

theorem to_np_kind (t : Tens) (d : DType) : (to_np t d).kind = Kind.numpy := by
  unfold to_np astypeT
  by_cases hk : t.kind = Kind.torch <;> by_cases hd : t.dtype = d <;>
    cases ht : t.kind <;> simp_all

theorem to_pt_dtype (t : Tens) (d : DType) : (to_pt t d).dtype = d := by
  unfold to_pt castTo
  by_cases hk : t.kind = Kind.numpy <;> by_cases hd : t.dtype = d <;>
    simp [hk, hd]

theorem to_pt_shape (t : Tens) (d : DType) : (to_pt t d).shape = t.shape := by
  unfold to_pt castTo
  by_cases hk : t.kind = Kind.numpy <;> by_cases hd : t.dtype = d <;>
    simp [hk, hd]

theorem to_pt_kind (t : Tens) (d : DType) : (to_pt t d).kind = Kind.torch := by
  unfold to_pt castTo
  by_cases hk : t.kind = Kind.numpy <;> by_cases hd : t.dtype = d <;>
    cases ht : t.kind <;> simp_all

theorem astypeT_shape (t : Tens) (d : DType) : (astypeT t d).shape = t.shape :=
  rfl

/-! ## Data model: arguments, opaque environment, observable events -/

/-- Choices of `--denoising-prec`. -/
inductive Prec where
  | fp16
  | fp32
deriving DecidableEq, Repr

/-- The value of `args.prompt`: `argparse` (`type=str`) yields a string,
and `main`'s measurement loop replaces it with a list of strings. -/
inductive PromptV where
  | str (s : String)
  | list (l : List String)
deriving DecidableEq, Repr

/-- The texts handed to the tokenizer: a single string tokenizes as a
batch of one, a list as a batch of its length. -/
def promptTexts : PromptV → List String
  | PromptV.str s => [s]
  | PromptV.list l => l

def emptyStr : String := ""

/-- First prompt string (the parsed `--prompt` is always a `str`). -/
def pvStr : PromptV → String
  | PromptV.str s => s
  | PromptV.list l => l.headD emptyStr

/-- The fields of `args` the pipeline reads.  Instrumentation-only fields
(`seed`, `device`, `onnx-dir`, `io-binding`, the tokenizer object) are not
modelled; `warmup` is the attribute `main` sets with `setattr`. -/
structure Args where
  prompt : PromptV
  negativePrompt : List String
  batchSize : Nat
  height : Nat
  width : Nat
  numWarmupRuns : Nat
  denoisingSteps : Nat
  numImages : Nat
  guidanceScale : ℚ
  denoisingPrec : Prec
  outputDir : String
  warmup : Bool

/-- The names of the three ONNX model sessions. -/
inductive Model where
  | clip
  | unet
  | vae
deriving DecidableEq, Repr

/-- Execution providers passed to `ort.InferenceSession`. -/
inductive Provider where
  | tensorrtExecutionProvider
  | cudaExecutionProvider
deriving DecidableEq, Repr

/-- Modelled from the spec: the opaque external dependencies (tokenizer
encode, runtime session run, scheduler scale/step, latent noise
generation), which the spec treats as narrow call/response contracts; the
tokenizer, onnxruntime and the `utilities` schedulers are not under the
sources here. -/
structure Env where
  tokenize : List String → Nat → Tens
  clipRun : Tens → Tens
  unetRun : Tens → Tens → Tens → Tens
  vaeRun : Tens → Tens
  randn : List Nat → List ℚ
  initNoiseSigma : ℚ
  schedTimesteps : List ℚ
  timestepsDtype : DType
  scaleModelInput : Tens → Nat → Tens
  schedStep : Tens → Tens → Nat → ℚ → Tens
  tokenizerMaxLen : Nat

/-- Modelled from the spec: `scheduler.set_timesteps(n)` (in
`utilities.LMSDiscreteScheduler` / `DPMScheduler`, outside the sources
here) fixes the timestep sequence to exactly `n` denoising steps, from the
training range down towards `0`. -/
def set_timesteps (n : Nat) : List ℚ :=
  (List.range n).map (fun i => ((n - 1 - i : Nat) : ℚ))

theorem set_timesteps_length (n : Nat) : (set_timesteps n).length = n := by
  simp [set_timesteps]

/-- Contracts of the opaque environment, as the spec's narrow
call/response contracts state them: the tokenizer pads every text of a
batch to `max_length`, the CLIP session preserves the batch dimension, and
`scale_model_input` / `scheduler.step` preserve the tensor shape. -/
structure EnvOK (env : Env) : Prop where
  tok_shape : ∀ ts m, (env.tokenize ts m).shape = [ts.length, m]
  clip_dim0 : ∀ t, (env.clipRun t).shape.headD 0 = t.shape.headD 0
  scale_shape : ∀ t i, (env.scaleModelInput t i).shape = t.shape
  step_shape : ∀ n l i t, (env.schedStep n l i t).shape = l.shape

/-- Observable events of one process execution. -/
inductive Event where
  | loadSession (m : Model) (providers : List Provider)
  | sessionRun (m : Model) (inputs : List (String × Tens)) (output : Tens)
  | tokenizeCall (texts : List String) (maxLen : Nat) (ids : Tens)
  | schedStepCall (noisePred : Tens) (stepIndex : Nat)
  | pipelineBegin (warmup : Bool) (batchSize : Nat) (prompt : PromptV)
      (negPrompt : List String)
  | printLatencyTable (steps : Nat)
  | saveImageEv (outputDir : String)
  | memMeasureBegin
  | memMeasureEnd
deriving DecidableEq, Repr

/-! ## `run_pipeline` -/

/-- Shape `latents_shape = (batch_size * num_images, 4, height // 8, width // 8)`. -/
def latentsShape (args : Args) : List Nat :=
  [args.batchSize * args.numImages, 4, args.height / 8, args.width / 8]

/-- Initial latents: `torch.randn(latents_shape, dtype=float32)` scaled by
`scheduler.init_noise_sigma`. -/
def latents0 (env : Env) (args : Args) : Tens :=
  smulT env.initNoiseSigma
    ⟨Kind.torch, DType.f32, latentsShape args, env.randn (latentsShape args)⟩

/-- Tokenized `text_input_ids`: tokenize the prompt padded to
`tokenizer.model_max_length`, then `astype(np.int32)`. -/
def textIds (env : Env) (args : Args) : Tens :=
  astypeT (env.tokenize (promptTexts args.prompt) env.tokenizerMaxLen) DType.i32

/-- Raw CLIP output `text_embeddings = clip_sess.run(None, text_input_args)[0]`. -/
def textEmbRaw (env : Env) (args : Args) : Tens :=
  env.clipRun (textIds env args)

/-- Text embeddings after `to_pt(..., float32)`, `repeat(1, num_images, 1)`
and `view(bs_embed * num_images, seq_len, -1)`. -/
def textEmbProc (env : Env) (args : Args) : Tens :=
  let te := to_pt (textEmbRaw env args) DType.f32
  let bsEmbed := te.shape.headD 0
  let seqLen := te.shape.getD 1 0
  viewInfer (repeatDim1 te args.numImages) (bsEmbed * args.numImages) seqLen

/-- Padding length `max_length = text_input_ids.shape[-1]`. -/
def uncondMaxLength (env : Env) (args : Args) : Nat :=
  (textIds env args).shape.getLastD 0

/-- Tokenized `uncond_input_ids`: tokenize the negative prompt padded/truncated to
`max_length`, then `astype(np.int32)`. -/
def uncondIds (env : Env) (args : Args) : Tens :=
  astypeT (env.tokenize args.negativePrompt (uncondMaxLength env args)) DType.i32

/-- Raw CLIP output `uncond_embeddings = clip_sess.run(None, uncond_input_args)[0]`. -/
def uncondEmbRaw (env : Env) (args : Args) : Tens :=
  env.clipRun (uncondIds env args)

/-- Unconditional embeddings after `to_pt(..., float32)`,
`repeat(1, num_images, 1)` and `view(batch_size * num_images, seq_len, -1)`. -/
def uncondEmbProc (env : Env) (args : Args) : Tens :=
  let ue := to_pt (uncondEmbRaw env args) DType.f32
  let seqLen := ue.shape.getD 1 0
  viewInfer (repeatDim1 ue args.numImages)
    (args.batchSize * args.numImages) seqLen

/-- Concatenated `text_embeddings = torch.cat([uncond_embeddings, text_embeddings])`,
then cast to fp16 when `denoising_prec == 'fp16'`. -/
def embeddings (env : Env) (args : Args) : Tens :=
  let both := catT (uncondEmbProc env args) (textEmbProc env args)
  if args.denoisingPrec = Prec.fp16 then castTo both DType.f16 else both

/-- Events of the encode stage: two tokenizer calls and two CLIP session
runs, in source order. -/
def encodeEvs (env : Env) (args : Args) : List Event :=
  [Event.tokenizeCall (promptTexts args.prompt) env.tokenizerMaxLen
      (textIds env args),
   Event.sessionRun Model.clip [⟨("input_ids"), textIds env args⟩]
      (textEmbRaw env args),
   Event.tokenizeCall args.negativePrompt (uncondMaxLength env args)
      (uncondIds env args),
   Event.sessionRun Model.clip [⟨("input_ids"), uncondIds env args⟩]
      (uncondEmbRaw env args)]

/-- Precision `np.float16 if args.denoising_prec == 'fp16' else np.float32`. -/
def unetDtype (args : Args) : DType :=
  if args.denoisingPrec = Prec.fp16 then DType.f16 else DType.f32

/-- Scalar `timestep_float`: the timestep, cast with `.float()` when its
dtype is not float32. -/
def timestepFloat (env : Env) (t : ℚ) : Tens :=
  let ts : Tens := ⟨Kind.torch, env.timestepsDtype, [], [t]⟩
  if ts.dtype ≠ DType.f32 then castTo ts DType.f32 else ts

/-- Array `np.array([to_np(timestep_float, np.float32)], dtype=np.float32)`. -/
def timestepArr (env : Env) (t : ℚ) : Tens :=
  ⟨Kind.numpy, DType.f32, [1], (to_np (timestepFloat env t) DType.f32).data⟩

/-- The `'sample'` input of one denoising iteration:
`to_np(scale_model_input(torch.cat([latents] * 2), step_index), np.float32)`. -/
def sampleIn (env : Env) (latents : Tens) (si : Nat) : Tens :=
  to_np (env.scaleModelInput (catSelf2 latents) si) DType.f32

/-- The `'encoder_hidden_states'` input of one denoising iteration. -/
def ehsIn (env : Env) (args : Args) : Tens :=
  to_np (embeddings env args) (unetDtype args)

/-- The UNet session output of one denoising iteration. -/
def unetOut (env : Env) (args : Args) (latents : Tens) (si : Nat) (t : ℚ) :
    Tens :=
  env.unetRun (sampleIn env latents si) (timestepArr env t) (ehsIn env args)

/-- Classifier-free guidance of lines 215-219:
`noise_pred = to_pt(out, float16)`, `chunk(2)` into unconditional and text
halves, then `uncond + guidance_scale * (text - uncond)`.
(`.to(args.device)` has no observable effect here.) -/
def guided (g : ℚ) (out : Tens) : Tens :=
  let pr := chunk2 (to_pt out DType.f16)
  addT pr.1 (smulT g (subT pr.2 pr.1))

/-- One denoising iteration: its two events (UNet session run, scheduler
step) and the updated latents. -/
def denoiseStep (env : Env) (args : Args) (latents : Tens) (si : Nat)
    (t : ℚ) : List Event × Tens :=
  let out := unetOut env args latents si t
  let pred := guided args.guidanceScale out
  ([Event.sessionRun Model.unet
      [⟨("sample"), sampleIn env latents si⟩,
       ⟨("timestep"), timestepArr env t⟩,
       ⟨("encoder_hidden_states"), ehsIn env args⟩] out,
    Event.schedStepCall pred si],
   env.schedStep pred latents si t)

/-- The denoising loop `for step_index, timestep in enumerate(timesteps)`,
threading the latents. -/
def denoiseAux (env : Env) (args : Args) :
    List (Nat × ℚ) → Tens → List Event × Tens
  | [], l => ([], l)
  | (si, t) :: rest, l =>
      let st := denoiseStep env args l si t
      let r := denoiseAux env args rest st.2
      (st.1 ++ r.1, r.2)

/-- Events and final latents of the full denoising loop. -/
def denoiseRes (env : Env) (args : Args) : List Event × Tens :=
  denoiseAux env args (env.schedTimesteps.enum) (latents0 env args)

def loopEvs (env : Env) (args : Args) : List Event :=
  (denoiseRes env args).1

/-- Scaling `latents = 1. / 0.18215 * latents` after the loop. -/
def latentsFinal (env : Env) (args : Args) : Tens :=
  smulT ((1 : ℚ) / 0.18215) (denoiseRes env args).2

/-- The `'latent'` input of the VAE session run. -/
def vaeIn (env : Env) (args : Args) : Tens :=
  to_np (latentsFinal env args) DType.f32

def imagesOut (env : Env) (args : Args) : Tens :=
  env.vaeRun (vaeIn env args)

/-- The reporting stage: latency table printing and image saving happen
only when `args.warmup` is false. -/
def reportEvs (args : Args) : List Event :=
  if args.warmup then []
  else [Event.printLatencyTable args.denoisingSteps,
        Event.saveImageEv args.outputDir]

/-- Everything after the initial event of one pipeline execution. -/
def pipelineTail (env : Env) (args : Args) : List Event :=
  encodeEvs env args ++ loopEvs env args ++
    [Event.sessionRun Model.vae [⟨("latent"), vaeIn env args⟩]
        (imagesOut env args)] ++
    reportEvs args

/-- The event trace of `run_pipeline(args)`. -/
def run_pipeline (env : Env) (args : Args) : List Event :=
  Event.pipelineBegin args.warmup args.batchSize args.prompt
      args.negativePrompt ::
    pipelineTail env args

/-! ## `main` -/

/-- The provider list of every `ort.InferenceSession` call in `main`. -/
def providersList : List Provider :=
  [Provider.tensorrtExecutionProvider, Provider.cudaExecutionProvider]

/-- Dummy input `np.zeros((batch_size, 77), dtype=np.int32)` with `batch_size = 1`. -/
def clipDummyIn : Tens := npZeros [1, 77] DType.i32

/-- The zero-filled warm-up inputs of the first UNet inference pass. -/
def unetDummyIns (args : Args) : List (String × Tens) :=
  [⟨("sample"), npZeros [2 * 1, 4, args.height / 8, args.width / 8] DType.f32⟩,
   ⟨("timestep"), npZeros [1] DType.f32⟩,
   ⟨("encoder_hidden_states"), npZeros [2 * 1, 77, 768] (unetDtype args)⟩]

/-- Dummy input `np.zeros((batch_size, 4, height // 8, width // 8), dtype=np.float32)`. -/
def vaeDummyIn (args : Args) : Tens :=
  npZeros [1, 4, args.height / 8, args.width / 8] DType.f32

/-- Model loading: each session is created with the TensorRT/CUDA provider
list and run once on zero-filled dummy inputs, in source order. -/
def loadPhase (env : Env) (args : Args) : List Event :=
  [Event.loadSession Model.clip providersList,
   Event.sessionRun Model.clip [⟨("input_ids"), clipDummyIn⟩]
      (env.clipRun clipDummyIn),
   Event.loadSession Model.unet providersList,
   Event.sessionRun Model.unet (unetDummyIns args)
      (env.unetRun (npZeros [2 * 1, 4, args.height / 8, args.width / 8]
          DType.f32)
        (npZeros [1] DType.f32)
        (npZeros [2 * 1, 77, 768] (unetDtype args))),
   Event.loadSession Model.vae providersList,
   Event.sessionRun Model.vae [⟨("latent"), vaeDummyIn args⟩]
      (env.vaeRun (vaeDummyIn args))]

/-- The arguments of the warm-up runs: `setattr(args, 'warmup', True)`. -/
def warmupArgs (args : Args) : Args := { args with warmup := true }

/-- Warm-up loop `for _ in range(args.num_warmup_runs): run_pipeline(args)`. -/
def warmupPhase (env : Env) (args : Args) : List Event :=
  (List.replicate args.numWarmupRuns (run_pipeline env (warmupArgs args))).flatten

/-- Python `list * n`: the list repeated `n` times. -/
def listRep (n : Nat) (l : List String) : List String :=
  (List.replicate n l).flatten

/-- The arguments of one measured batch size: warmup off, batch size set,
`args.prompt = [init_prompt] * bs` and
`args.negative_prompt = init_negative_prompt * bs`. -/
def measArgs (args : Args) (bs : Nat) : Args :=
  { args with
      warmup := false
      batchSize := bs
      prompt := PromptV.list (List.replicate bs (pvStr args.prompt))
      negativePrompt := listRep bs args.negativePrompt }

/-- One measured batch size: a latency run, then a run under
`measure_memory`.  Modelled from the spec: `measure_memory` (from
onnxruntime's `benchmark_helper`, outside the sources here) invokes the
given function once while recording memory statistics. -/
def measBlock (env : Env) (args : Args) (bs : Nat) : List Event :=
  run_pipeline env (measArgs args bs) ++
    (Event.memMeasureBegin :: run_pipeline env (measArgs args bs) ++
      [Event.memMeasureEnd])

/-- The batch sizes `main` measures, in source order. -/
def batchSizes : List Nat := [1, 2, 4, 8, 16]

/-- The event trace of `main()`: model loading with first inference
passes, the warm-up pipeline runs, then the measurement loop. -/
def mainTrace (env : Env) (args : Args) : List Event :=
  loadPhase env args ++ warmupPhase env args ++
    (batchSizes.map (measBlock env args)).flatten

/-! ## A concrete environment and arguments for witnesses -/

def env0 : Env where
  tokenize := fun ts m =>
    ⟨Kind.numpy, DType.i32, [ts.length, m], List.replicate (ts.length * m) 0⟩
  clipRun := fun t =>
    ⟨Kind.numpy, DType.f16, [t.shape.headD 0, 2, 3],
      List.replicate (t.shape.headD 0 * (2 * 3)) 1⟩
  unetRun := fun _ _ _ => ⟨Kind.numpy, DType.f16, [2, 1], [1, 3]⟩
  vaeRun := fun t => t
  randn := fun s => List.replicate s.prod 0
  initNoiseSigma := 1
  schedTimesteps := set_timesteps 1
  timestepsDtype := DType.f32
  scaleModelInput := fun t _ => t
  schedStep := fun _ l _ _ => l
  tokenizerMaxLen := 2

def promptStr0 : String := "p"

def args0 : Args where
  prompt := PromptV.str promptStr0
  negativePrompt := [emptyStr]
  batchSize := 1
  height := 16
  width := 16
  numWarmupRuns := 1
  denoisingSteps := 1
  numImages := 1
  guidanceScale := 2
  denoisingPrec := Prec.fp16
  outputDir := emptyStr
  warmup := false

theorem envOK0 : EnvOK env0 := by
  constructor <;> intros <;> rfl

/-! ## Event classifiers -/

def isUnetRunB : Event → Bool
  | Event.sessionRun Model.unet _ _ => true
  | _ => false

def isSchedStepB : Event → Bool
  | Event.schedStepCall _ _ => true
  | _ => false

def isPrintB : Event → Bool
  | Event.printLatencyTable _ => true
  | _ => false

def isSaveB : Event → Bool
  | Event.saveImageEv _ => true
  | _ => false

/-- True on every event except a pipeline start. -/
def notBeginB : Event → Bool
  | Event.pipelineBegin _ _ _ _ => false
  | _ => true

def loadInfo : Event → Option (Model × List Provider)
  | Event.loadSession m p => some (m, p)
  | _ => none

def runInfo : Event → Option (Model × List (String × Tens))
  | Event.sessionRun m i _ => some (m, i)
  | _ => none

def beginWarmupFlag : Event → Option Bool
  | Event.pipelineBegin w _ _ _ => some w
  | _ => none

/-- Batch size, prompt and negative prompt of a measured (non-warmup)
pipeline start. -/
def measBeginInfo : Event → Option (Nat × PromptV × List String)
  | Event.pipelineBegin w bs pr ng => if w then none else some (bs, pr, ng)
  | _ => none

/-- Observations of the measurement loop: a measured pipeline run of a
given batch size, or the start/end of a `measure_memory` call. -/
inductive MObs where
  | run (bs : Nat)
  | mBeg
  | mEnd
deriving DecidableEq, Repr

def measObs : Event → Option MObs
  | Event.pipelineBegin w bs _ _ => if w then none else some (MObs.run bs)
  | Event.memMeasureBegin => some MObs.mBeg
  | Event.memMeasureEnd => some MObs.mEnd
  | _ => none

/-- Pipeline stage of an event: 0 encode, 1 denoise, 2 decode, 3 report. -/
def stageOf : Event → Nat
  | Event.sessionRun Model.unet _ _ => 1
  | Event.schedStepCall _ _ => 1
  | Event.sessionRun Model.vae _ _ => 2
  | Event.printLatencyTable _ => 3
  | Event.saveImageEv _ => 3
  | _ => 0

/-! ## Lemmas about the denoising loop trace -/

theorem denoiseAux_nil (env : Env) (args : Args) (l : Tens) :
    denoiseAux env args [] l = ([], l) := rfl

theorem denoiseAux_cons (env : Env) (args : Args) (si : Nat) (t : ℚ)
    (rest : List (Nat × ℚ)) (l : Tens) :
    denoiseAux env args ((si, t) :: rest) l =
      ((denoiseStep env args l si t).1 ++
        (denoiseAux env args rest (denoiseStep env args l si t).2).1,
       (denoiseAux env args rest (denoiseStep env args l si t).2).2) := rfl

/-- Every event the denoising loop emits is a UNet session run or a
scheduler step. -/
theorem denoise_mem_shape (env : Env) (args : Args) :
    ∀ (steps : List (Nat × ℚ)) (l : Tens) (e : Event),
      e ∈ (denoiseAux env args steps l).1 →
      (∃ ins out, e = Event.sessionRun Model.unet ins out) ∨
      (∃ np si, e = Event.schedStepCall np si) := by
  intro steps
  induction steps with
  | nil => intro l e he; simp [denoiseAux_nil] at he
  | cons st rest ih =>
      intro l e he
      obtain ⟨si, t⟩ := st
      rw [denoiseAux_cons] at he
      rcases List.mem_append.mp he with h | h
      · simp only [denoiseStep, List.mem_cons, List.mem_singleton] at h
        rcases h with h | h | h
        · exact Or.inl ⟨_, _, h⟩
        · exact Or.inr ⟨_, _, h⟩
        · simp at h
      · exact ih _ e h

theorem denoise_count_unet (env : Env) (args : Args) :
    ∀ (steps : List (Nat × ℚ)) (l : Tens),
      ((denoiseAux env args steps l).1.countP isUnetRunB) = steps.length := by
  intro steps
  induction steps with
  | nil => intro l; simp [denoiseAux_nil]
  | cons st rest ih =>
      intro l
      obtain ⟨si, t⟩ := st
      rw [denoiseAux_cons, List.countP_append]
      simp [denoiseStep, isUnetRunB, List.countP_cons, ih]
      omega

theorem denoise_count_sched (env : Env) (args : Args) :
    ∀ (steps : List (Nat × ℚ)) (l : Tens),
      ((denoiseAux env args steps l).1.countP isSchedStepB) = steps.length := by
  intro steps
  induction steps with
  | nil => intro l; simp [denoiseAux_nil]
  | cons st rest ih =>
      intro l
      obtain ⟨si, t⟩ := st
      rw [denoiseAux_cons, List.countP_append]
      simp [denoiseStep, isSchedStepB, List.countP_cons, ih]
      omega

theorem to_np_id (t : Tens) (d : DType) (hk : t.kind = Kind.numpy)
    (hd : t.dtype = d) : to_np t d = t := by
  unfold to_np
  simp [hk, hd]

theorem to_pt_id (t : Tens) (d : DType) (hk : t.kind = Kind.torch)
    (hd : t.dtype = d) : to_pt t d = t := by
  unfold to_pt
  simp [hk, hd]

/-! ## Claim theorems -/

/-- C9: `to_np` always returns a numpy array of exactly the requested
dtype, is the identity on a numpy array that already has that dtype, and
is idempotent at a fixed dtype; symmetrically, `to_pt` always returns a
torch tensor of the requested dtype and is the identity (hence
idempotent) on a torch tensor whose dtype already matches. -/
theorem to_np_to_pt_dtype_contract (t : Tens) (d : DType) :
    ((to_np t d).kind = Kind.numpy ∧ (to_np t d).dtype = d) ∧
    (t.kind = Kind.numpy → t.dtype = d → to_np t d = t) ∧
    to_np (to_np t d) d = to_np t d ∧
    ((to_pt t d).kind = Kind.torch ∧ (to_pt t d).dtype = d) ∧
    (t.kind = Kind.torch → t.dtype = d → to_pt t d = t) ∧
    to_pt (to_pt t d) d = to_pt t d :=
  ⟨⟨to_np_kind t d, to_np_dtype t d⟩,
   to_np_id t d,
   to_np_id (to_np t d) d (to_np_kind t d) (to_np_dtype t d),
   ⟨to_pt_kind t d, to_pt_dtype t d⟩,
   to_pt_id t d,
   to_pt_id (to_pt t d) d (to_pt_kind t d) (to_pt_dtype t d)⟩

/-- Witness for C9 at a concrete numpy float32 array and a concrete torch
float16 tensor. -/
theorem to_np_to_pt_dtype_contract_witness :
    to_np (npZeros [1] DType.f32) DType.f32 = npZeros [1] DType.f32 ∧
    to_pt (⟨Kind.torch, DType.f16, [1], [0]⟩ : Tens) DType.f16 =
      (⟨Kind.torch, DType.f16, [1], [0]⟩ : Tens) :=
  ⟨(to_np_to_pt_dtype_contract (npZeros [1] DType.f32) DType.f32).2.1 rfl rfl,
   (to_np_to_pt_dtype_contract (⟨Kind.torch, DType.f16, [1], [0]⟩ : Tens)
      DType.f16).2.2.2.2.1 rfl rfl⟩

/-- C8: a warm-up call of `run_pipeline` prints no latency table and saves
no image; a measured (non-warmup) call does each exactly once, so printing
and saving occur only when `args.warmup` is false. -/
theorem warmup_suppresses_output (env : Env) (args : Args) :
    ((run_pipeline env args).countP isPrintB =
      if args.warmup then 0 else 1) ∧
    ((run_pipeline env args).countP isSaveB =
      if args.warmup then 0 else 1) := by
  have hloop : ∀ p : Event → Bool,
      (∀ i o, p (Event.sessionRun Model.unet i o) = false) →
      (∀ n s, p (Event.schedStepCall n s) = false) →
      (loopEvs env args).countP p = 0 := by
    intro p h1 h2
    rw [List.countP_eq_zero]
    intro e he
    rcases denoise_mem_shape env args _ _ e he with ⟨i, o, rfl⟩ | ⟨n, s, rfl⟩
    · simp [h1]
    · simp [h2]
  constructor <;>
  · rw [run_pipeline, pipelineTail, List.countP_cons, List.countP_append,
      List.countP_append, List.countP_append,
      hloop _ (fun _ _ => rfl) (fun _ _ => rfl)]
    cases hw : args.warmup <;>
      simp only [encodeEvs, reportEvs, hw, List.countP_cons, List.countP_nil,
        isPrintB, isSaveB, if_true, if_false, Bool.false_eq_true, ite_true,
        ite_false]

/-- C2: the denoising loop of one pipeline run performs exactly one UNet
session run and one scheduler step per entry of `scheduler.timesteps`, and
`set_timesteps(args.denoising_steps)` (called at argument-parsing time)
fixes that count to `args.denoising_steps`; hence the UNet is run exactly
`denoising_steps` times per pipeline execution. -/
theorem unet_runs_per_pipeline (env : Env) (args : Args)
    (hT : env.schedTimesteps = set_timesteps args.denoisingSteps) :
    (run_pipeline env args).countP isUnetRunB = args.denoisingSteps ∧
    (run_pipeline env args).countP isSchedStepB = args.denoisingSteps := by
  have hlen : env.schedTimesteps.enum.length = args.denoisingSteps := by
    rw [List.enum_length, hT, set_timesteps_length]
  constructor <;>
  · rw [run_pipeline, pipelineTail, List.countP_cons, List.countP_append,
      List.countP_append, List.countP_append]
    rw [loopEvs, denoiseRes]
    first
      | rw [denoise_count_unet env args _ _, hlen]
      | rw [denoise_count_sched env args _ _, hlen]
    cases hw : args.warmup <;>
      simp [encodeEvs, reportEvs, hw, isUnetRunB, isSchedStepB]

/-- Witness for C2 with one denoising step. -/
theorem unet_runs_per_pipeline_witness :
    (run_pipeline env0 args0).countP isUnetRunB = args0.denoisingSteps ∧
    (run_pipeline env0 args0).countP isSchedStepB = args0.denoisingSteps :=
  unet_runs_per_pipeline env0 args0 rfl

/-- In the loop trace (with any unet-free suffix appended), every UNet
session run is immediately followed by a scheduler step whose noise
prediction is the guidance blend of that run's output. -/
theorem denoise_guidance_adj (env : Env) (args : Args) :
    ∀ (steps : List (Nat × ℚ)) (l : Tens) (suf : List Event),
      (∀ j i o, suf.get? j ≠ some (Event.sessionRun Model.unet i o)) →
      ∀ k ins out,
        ((denoiseAux env args steps l).1 ++ suf).get? k =
          some (Event.sessionRun Model.unet ins out) →
        ∃ si, ((denoiseAux env args steps l).1 ++ suf).get? (k + 1) =
          some (Event.schedStepCall (guided args.guidanceScale out) si) := by
  intro steps
  induction steps with
  | nil =>
      intro l suf hs k ins out h
      rw [denoiseAux_nil] at h
      exact absurd h (hs k ins out)
  | cons st rest ih =>
      intro l suf hs k ins out h
      obtain ⟨si, t⟩ := st
      rw [denoiseAux_cons] at h ⊢
      simp only [denoiseStep, List.cons_append, List.nil_append] at h ⊢
      match k with
      | 0 =>
          rw [List.get?_cons_zero] at h
          obtain ⟨-, rfl⟩ :=
            Event.sessionRun.inj (Option.some.inj h).symm |>.2
          exact ⟨si, rfl⟩
      | 1 =>
          rw [List.get?_cons_succ, List.get?_cons_zero] at h
          simp at h
      | Nat.succ (Nat.succ k) =>
          rw [List.get?_cons_succ, List.get?_cons_succ] at h ⊢
          exact ih _ suf hs k ins out h

/-- C1: in every denoising iteration, the noise prediction handed to
`scheduler.step` equals
`noise_pred_uncond + guidance_scale * (noise_pred_text - noise_pred_uncond)`,
where the unconditional and text predictions are respectively the first
and second halves (`chunk(2)` along the batch dimension) of the UNet
session output. -/
theorem unet_guidance_blend (env : Env) (args : Args) (k : Nat)
    (ins : List (String × Tens)) (out : Tens)
    (h : (run_pipeline env args).get? k =
      some (Event.sessionRun Model.unet ins out)) :
    ∃ si, (run_pipeline env args).get? (k + 1) =
      some (Event.schedStepCall
        (addT (chunk2 (to_pt out DType.f16)).1
          (smulT args.guidanceScale
            (subT (chunk2 (to_pt out DType.f16)).2
              (chunk2 (to_pt out DType.f16)).1))) si) := by
  have hdecomp : run_pipeline env args =
      (Event.pipelineBegin args.warmup args.batchSize args.prompt
          args.negativePrompt :: encodeEvs env args) ++
      ((denoiseAux env args env.schedTimesteps.enum
          (latents0 env args)).1 ++
        (Event.sessionRun Model.vae [⟨("latent"), vaeIn env args⟩]
            (imagesOut env args) :: reportEvs args)) := by
    simp [run_pipeline, pipelineTail, loopEvs, denoiseRes, List.append_assoc]
  have hsuf : ∀ j i o,
      (Event.sessionRun Model.vae [⟨("latent"), vaeIn env args⟩]
          (imagesOut env args) :: reportEvs args).get? j ≠
        some (Event.sessionRun Model.unet i o) := by
    intro j i o
    match j with
    | 0 => simp
    | Nat.succ j =>
        rw [List.get?_cons_succ]
        cases hw : args.warmup <;> simp only [reportEvs, hw] <;>
          match j with
          | 0 => simp
          | 1 => simp
          | Nat.succ (Nat.succ j) => simp
  have hlen : (Event.pipelineBegin args.warmup args.batchSize args.prompt
      args.negativePrompt :: encodeEvs env args).length = 5 := by
    simp [encodeEvs]
  rcases Nat.lt_or_ge k 5 with hk | hk
  · rw [hdecomp, List.get?_append (by rw [hlen]; exact hk)] at h
    interval_cases k <;> simp [encodeEvs] at h
  · rw [hdecomp] at h ⊢
    rw [List.get?_append_right (by rw [hlen]; exact hk)] at h
    rw [List.get?_append_right (by rw [hlen]; omega)]
    have harith : k + 1 - (Event.pipelineBegin args.warmup args.batchSize
        args.prompt args.negativePrompt :: encodeEvs env args).length =
        (k - 5) + 1 := by rw [hlen]; omega
    rw [harith]
    rw [hlen] at h
    exact denoise_guidance_adj env args _ _ _ hsuf (k - 5) ins out h

/-- The timestep value of the single denoising iteration under `env0`. -/
def t0q : ℚ := ((1 - 1 - 0 : Nat) : ℚ)

def lat0c : Tens := latents0 env0 args0

def sample0 : Tens := sampleIn env0 lat0c 0

def ts0 : Tens := timestepArr env0 t0q

def ehs0 : Tens := ehsIn env0 args0

def ins0 : List (String × Tens) :=
  [⟨("sample"), sample0⟩, ⟨("timestep"), ts0⟩,
   ⟨("encoder_hidden_states"), ehs0⟩]

/-- The UNet output of the first denoising iteration under `env0` /
`args0` (its value is `⟨Kind.numpy, DType.f16, [2, 1], [1, 3]⟩`, with
halves `[1]` and `[3]`; with guidance scale 2 the blend is
`1 + 2 * (3 - 1) = 5`). -/
def out0 : Tens := unetOut env0 args0 lat0c 0 t0q

/-- Witness for C1 at the first denoising iteration (trace position 5) of
the concrete run. -/
theorem unet_guidance_blend_witness :
    ∃ si, (run_pipeline env0 args0).get? (5 + 1) =
      some (Event.schedStepCall
        (addT (chunk2 (to_pt out0 DType.f16)).1
          (smulT args0.guidanceScale
            (subT (chunk2 (to_pt out0 DType.f16)).2
              (chunk2 (to_pt out0 DType.f16)).1))) si) :=
  unet_guidance_blend env0 args0 5 ins0 out0 rfl

theorem pairwise_le_of_all_eq {l : List Nat} {c : Nat}
    (h : ∀ x ∈ l, x = c) : l.Pairwise (· ≤ ·) := by
  induction l with
  | nil => exact List.Pairwise.nil
  | cons a l ih =>
      refine List.Pairwise.cons (fun b hb => ?_)
        (ih (fun x hx => h x (List.mem_cons_of_mem a hx)))
      rw [h a (List.mem_cons_self a l), h b (List.mem_cons_of_mem a hb)]

theorem get?_append_pair {α : Type} (A : List α) (p s : α) :
    (A ++ [p, s]).get? A.length = some p ∧
    (A ++ [p, s]).get? (A.length + 1) = some s := by
  constructor
  · rw [List.get?_append_right (le_refl _), Nat.sub_self]
    rfl
  · rw [List.get?_append_right (by omega)]
    have h1 : A.length + 1 - A.length = 1 := by omega
    rw [h1]
    rfl

theorem denoise_stage (env : Env) (args : Args) (steps : List (Nat × ℚ))
    (l : Tens) : ∀ e ∈ (denoiseAux env args steps l).1, stageOf e = 1 := by
  intro e he
  rcases denoise_mem_shape env args steps l e he with ⟨i, o, rfl⟩ | ⟨n, s, rfl⟩
  · rfl
  · rfl

/-- C5: the stages of one pipeline execution occur in the fixed order
encode (0) → denoise (1) → decode (2) → report (3): the stage sequence of
the trace is monotone; in a non-warmup run latency printing is immediately
followed by image saving, and the encode, decode and report stages are all
present; the denoise stage is present whenever the timestep list is
nonempty. -/
theorem pipeline_stage_order (env : Env) (args : Args) :
    ((run_pipeline env args).map stageOf).Pairwise (· ≤ ·) ∧
    (args.warmup = false →
      ∃ k, (run_pipeline env args).get? k =
          some (Event.printLatencyTable args.denoisingSteps) ∧
        (run_pipeline env args).get? (k + 1) =
          some (Event.saveImageEv args.outputDir)) ∧
    (args.warmup = false →
      0 ∈ (run_pipeline env args).map stageOf ∧
      2 ∈ (run_pipeline env args).map stageOf ∧
      3 ∈ (run_pipeline env args).map stageOf) ∧
    (env.schedTimesteps ≠ [] →
      1 ∈ (run_pipeline env args).map stageOf) := by
  have hloop1 : ∀ x ∈ (loopEvs env args).map stageOf, x = 1 := by
    intro x hx
    rcases List.mem_map.mp hx with ⟨e, he, rfl⟩
    exact denoise_stage env args _ _ e he
  refine ⟨?_, ?_, ?_, ?_⟩
  · have hsh : run_pipeline env args =
        Event.pipelineBegin args.warmup args.batchSize args.prompt
            args.negativePrompt ::
          (encodeEvs env args ++ (loopEvs env args ++
            (Event.sessionRun Model.vae [⟨("latent"), vaeIn env args⟩]
                (imagesOut env args) :: reportEvs args))) := by
      simp [run_pipeline, pipelineTail]
    rw [hsh, List.map_cons, List.map_append, List.map_append, List.map_cons]
    refine List.pairwise_cons.mpr ⟨fun b _ => Nat.zero_le b, ?_⟩
    rw [List.pairwise_append]
    refine ⟨by simp [encodeEvs, stageOf], ?_, ?_⟩
    · rw [List.pairwise_append]
      refine ⟨pairwise_le_of_all_eq hloop1, ?_, ?_⟩
      · refine List.pairwise_cons.mpr ⟨?_, ?_⟩
        · intro b hb
          have h2 : stageOf (Event.sessionRun Model.vae
              [⟨("latent"), vaeIn env args⟩] (imagesOut env args)) = 2 := rfl
          rw [h2]
          cases hw : args.warmup <;> simp [reportEvs, hw, stageOf] at hb <;>
            omega
        · cases hw : args.warmup <;>
            simp [reportEvs, hw, stageOf, List.pairwise_cons]
      · intro a ha b hb
        rw [hloop1 a ha]
        rcases List.mem_cons.mp hb with rfl | hb
        · show (1 : ℕ) ≤ 2
          omega
        · cases hw : args.warmup <;> simp [reportEvs, hw, stageOf] at hb <;>
            omega
    · intro a ha b hb
      have ha0 : a = 0 := by simpa [encodeEvs, stageOf] using ha
      rw [ha0]
      exact Nat.zero_le b
  · intro hw
    have hdecomp : run_pipeline env args =
        (Event.pipelineBegin args.warmup args.batchSize args.prompt
            args.negativePrompt ::
          (encodeEvs env args ++ loopEvs env args ++
            [Event.sessionRun Model.vae [⟨("latent"), vaeIn env args⟩]
              (imagesOut env args)])) ++
        [Event.printLatencyTable args.denoisingSteps,
         Event.saveImageEv args.outputDir] := by
      simp [run_pipeline, pipelineTail, reportEvs, hw]
    refine ⟨(Event.pipelineBegin args.warmup args.batchSize args.prompt
        args.negativePrompt ::
      (encodeEvs env args ++ loopEvs env args ++
        [Event.sessionRun Model.vae [⟨("latent"), vaeIn env args⟩]
          (imagesOut env args)])).length, ?_, ?_⟩
    · rw [hdecomp]
      exact (get?_append_pair _ _ _).1
    · rw [hdecomp]
      exact (get?_append_pair _ _ _).2
  · intro hw
    refine ⟨?_, ?_, ?_⟩
    · exact List.mem_map.mpr ⟨Event.pipelineBegin args.warmup args.batchSize
        args.prompt args.negativePrompt, List.mem_cons_self _ _, rfl⟩
    · refine List.mem_map.mpr ⟨Event.sessionRun Model.vae
        [⟨("latent"), vaeIn env args⟩] (imagesOut env args), ?_, rfl⟩
      simp [run_pipeline, pipelineTail]
    · refine List.mem_map.mpr
        ⟨Event.printLatencyTable args.denoisingSteps, ?_, rfl⟩
      simp [run_pipeline, pipelineTail, reportEvs, hw]
  · intro hne
    have henum : env.schedTimesteps.enum ≠ [] := by
      simpa [List.enum_eq_nil] using hne
    obtain ⟨st, rest, hsteps⟩ := List.exists_cons_of_ne_nil henum
    obtain ⟨si, t⟩ := st
    refine List.mem_map.mpr ⟨Event.sessionRun Model.unet
      [⟨("sample"), sampleIn env (latents0 env args) si⟩,
       ⟨("timestep"), timestepArr env t⟩,
       ⟨("encoder_hidden_states"), ehsIn env args⟩]
      (unetOut env args (latents0 env args) si t), ?_, rfl⟩
    rw [run_pipeline, pipelineTail, loopEvs, denoiseRes, hsteps,
      denoiseAux_cons]
    simp [denoiseStep]

/-- Witness for C5 on the concrete measured run. -/
theorem pipeline_stage_order_witness :
    ((run_pipeline env0 args0).map stageOf).Pairwise (· ≤ ·) ∧
    (∃ k, (run_pipeline env0 args0).get? k =
        some (Event.printLatencyTable args0.denoisingSteps) ∧
      (run_pipeline env0 args0).get? (k + 1) =
        some (Event.saveImageEv args0.outputDir)) ∧
    (0 ∈ (run_pipeline env0 args0).map stageOf ∧
     2 ∈ (run_pipeline env0 args0).map stageOf ∧
     3 ∈ (run_pipeline env0 args0).map stageOf) ∧
    1 ∈ (run_pipeline env0 args0).map stageOf :=
  ⟨(pipeline_stage_order env0 args0).1,
   (pipeline_stage_order env0 args0).2.1 rfl,
   (pipeline_stage_order env0 args0).2.2.1 rfl,
   (pipeline_stage_order env0 args0).2.2.2 (by simp [set_timesteps, env0])⟩

/-! ## Shape lemmas for the UNet inputs (C7) -/

theorem castTo_shape (t : Tens) (d : DType) : (castTo t d).shape = t.shape :=
  rfl

theorem textEmbProc_dim0 (env : Env) (args : Args) :
    (textEmbProc env args).shape.headD 0 =
      (to_pt (textEmbRaw env args) DType.f32).shape.headD 0 *
        args.numImages := rfl

theorem uncondEmbProc_dim0 (env : Env) (args : Args) :
    (uncondEmbProc env args).shape.headD 0 =
      args.batchSize * args.numImages := rfl

/-- Under the tokenizer and CLIP contracts, and with a prompt batch that
matches `args.batch_size`, the concatenated embeddings have batch
dimension `2 * batch_size * num_images`. -/
theorem embeddings_dim0 (env : Env) (args : Args) (hE : EnvOK env)
    (hp : (promptTexts args.prompt).length = args.batchSize) :
    (embeddings env args).shape.headD 0 =
      2 * (args.batchSize * args.numImages) := by
  have ht : (textEmbProc env args).shape.headD 0 =
      args.batchSize * args.numImages := by
    rw [textEmbProc_dim0, to_pt_shape, textEmbRaw, hE.clip_dim0, textIds,
      astypeT_shape, hE.tok_shape, hp]
    rfl
  have hcat : (embeddings env args).shape.headD 0 =
      (uncondEmbProc env args).shape.headD 0 +
        (textEmbProc env args).shape.headD 0 := by
    unfold embeddings catT
    cases hd : args.denoisingPrec <;> simp [castTo]
  rw [hcat, ht, uncondEmbProc_dim0]
  ring

theorem ehsIn_dim0 (env : Env) (args : Args) (hE : EnvOK env)
    (hp : (promptTexts args.prompt).length = args.batchSize) :
    (ehsIn env args).shape.headD 0 =
      2 * (args.batchSize * args.numImages) := by
  rw [ehsIn, to_np_shape]
  exact embeddings_dim0 env args hE hp

theorem sampleIn_shape (env : Env) (hE : EnvOK env) (l : Tens) (si : Nat) :
    (sampleIn env l si).shape = 2 * l.shape.headD 0 :: l.shape.drop 1 := by
  rw [sampleIn, to_np_shape, hE.scale_shape]
  rfl

/-- The property C7 asserts of the UNet inputs of one iteration. -/
def UNetInsOK (args : Args) (ins : List (String × Tens)) : Prop :=
  ∃ s ts e,
    ins = [⟨("sample"), s⟩, ⟨("timestep"), ts⟩,
      ⟨("encoder_hidden_states"), e⟩] ∧
    s.dtype = DType.f32 ∧
    s.shape = [2 * (args.batchSize * args.numImages), 4,
      args.height / 8, args.width / 8] ∧
    ts.dtype = DType.f32 ∧ ts.shape = [1] ∧
    e.dtype = (if args.denoisingPrec = Prec.fp16 then DType.f16
      else DType.f32) ∧
    e.shape.headD 0 = 2 * (args.batchSize * args.numImages)

/-- Through the denoising loop the latents keep the shape
`latents_shape`, so every UNet call satisfies `UNetInsOK`. -/
theorem denoise_unet_ins (env : Env) (args : Args) (hE : EnvOK env)
    (hp : (promptTexts args.prompt).length = args.batchSize) :
    ∀ (steps : List (Nat × ℚ)) (l : Tens), l.shape = latentsShape args →
      ∀ ins out,
        Event.sessionRun Model.unet ins out ∈
          (denoiseAux env args steps l).1 →
        UNetInsOK args ins := by
  intro steps
  induction steps with
  | nil => intro l hl ins out h; simp [denoiseAux_nil] at h
  | cons st rest ih =>
      intro l hl ins out h
      obtain ⟨si, t⟩ := st
      rw [denoiseAux_cons] at h
      rcases List.mem_append.mp h with h | h
      · simp only [denoiseStep, List.mem_cons, List.mem_singleton] at h
        rcases h with h | h | h
        · obtain ⟨-, rfl, -⟩ := Event.sessionRun.inj h.symm
          refine ⟨sampleIn env l si, timestepArr env t, ehsIn env args,
            rfl, to_np_dtype _ _, ?_, rfl, rfl, to_np_dtype _ _,
            ehsIn_dim0 env args hE hp⟩
          rw [sampleIn_shape env hE, hl]
          rfl
        · simp at h
        · simp at h
      · exact ih (denoiseStep env args l si t).2
          (by rw [denoiseStep, hE.step_shape, hl]) ins out h

/-- C7: in every denoising iteration the UNet is fed `sample` as float32
of shape `(2 * batch_size * num_images, 4, height // 8, width // 8)` (the
latents concatenated twice for classifier-free guidance), `timestep` as a
float32 array of shape `(1,)`, and `encoder_hidden_states` with dtype
float16 exactly when `denoising_prec == 'fp16'` (float32 otherwise) and
batch dimension `2 * batch_size * num_images`.  (The hypothesis that the
prompt batch matches `args.batch_size` holds for every measured run; a
mismatching configuration would raise in `view` before the loop.) -/
theorem unet_input_shapes (env : Env) (args : Args) (hE : EnvOK env)
    (hp : (promptTexts args.prompt).length = args.batchSize) :
    ∀ ins out,
      Event.sessionRun Model.unet ins out ∈ run_pipeline env args →
      UNetInsOK args ins := by
  intro ins out h
  rw [run_pipeline, pipelineTail] at h
  rcases List.mem_cons.mp h with h | h
  · simp at h
  rcases List.mem_append.mp h with h | h
  rcases List.mem_append.mp h with h | h
  rcases List.mem_append.mp h with h | h
  · simp [encodeEvs] at h
  · exact denoise_unet_ins env args hE hp _ (latents0 env args) rfl ins out h
  · simp at h
  · cases hw : args.warmup <;> simp [reportEvs, hw] at h

/-- Witness for C7 at the first denoising iteration of the concrete run. -/
theorem unet_input_shapes_witness : UNetInsOK args0 ins0 :=
  unet_input_shapes env0 args0 envOK0 rfl ins0 out0 (by
    rw [run_pipeline, pipelineTail]
    refine List.mem_cons_of_mem _ (List.mem_append_left _
      (List.mem_append_left _ (List.mem_append_right _ ?_)))
    rw [loopEvs, denoiseRes]
    show _ ∈ (denoiseAux env0 args0 [(0, t0q)] lat0c).1
    rw [denoiseAux_cons]
    exact List.mem_append_left _ (List.mem_cons_self _ _))

/-! ## Trace extraction lemmas for `main` -/

theorem loop_filterMap_nil {β : Type} (env : Env) (args : Args)
    (f : Event → Option β)
    (h1 : ∀ i o, f (Event.sessionRun Model.unet i o) = none)
    (h2 : ∀ n s, f (Event.schedStepCall n s) = none) :
    (loopEvs env args).filterMap f = [] := by
  rw [List.filterMap_eq_nil]
  intro e he
  rcases denoise_mem_shape env args _ _ e he with ⟨i, o, rfl⟩ | ⟨n, s, rfl⟩
  · exact h1 i o
  · exact h2 n s

theorem filterMap_flatten {α β : Type} (f : α → Option β) :
    ∀ L : List (List α),
      L.flatten.filterMap f = (L.map (fun l => l.filterMap f)).flatten := by
  intro L
  induction L with
  | nil => rfl
  | cons a L ih =>
      rw [List.flatten_cons, List.filterMap_append, List.map_cons,
        List.flatten_cons, ih]

theorem flatten_replicate_nil {α : Type} (n : Nat) :
    (List.replicate n ([] : List α)).flatten = [] := by
  induction n with
  | zero => rfl
  | succ n ih => rw [List.replicate_succ, List.flatten_cons, ih]; rfl

theorem flatten_replicate_singleton {α : Type} (n : Nat) (x : α) :
    (List.replicate n [x]).flatten = List.replicate n x := by
  induction n with
  | zero => rfl
  | succ n ih =>
      rw [List.replicate_succ, List.flatten_cons, ih, List.replicate_succ]
      rfl

theorem takeWhile_append_all {α : Type} {p : α → Bool} :
    ∀ {l₁ l₂ : List α}, (∀ a ∈ l₁, p a = true) →
      (l₁ ++ l₂).takeWhile p = l₁ ++ l₂.takeWhile p := by
  intro l₁
  induction l₁ with
  | nil => intro l₂ _; rfl
  | cons a l ih =>
      intro l₂ h
      rw [List.cons_append, List.takeWhile_cons,
        h a (List.mem_cons_self a l), List.cons_append,
        ih (fun b hb => h b (List.mem_cons_of_mem a hb))]
      rfl

/-- A trace that starts with a pipeline run begins with a
`pipelineBegin`, so `takeWhile notBeginB` of it is empty. -/
theorem takeWhile_pipeline_head (env : Env) (a : Args) (rest : List Event) :
    ((run_pipeline env a ++ rest).takeWhile notBeginB) = [] := by
  rw [run_pipeline, List.cons_append, List.takeWhile_cons]
  rfl

/-- No loads inside a run: `run_pipeline` emits no session-load events. -/
theorem pipeline_no_load (env : Env) (a : Args) :
    (run_pipeline env a).filterMap loadInfo = [] := by
  have hl : (loopEvs env a).filterMap loadInfo = [] :=
    loop_filterMap_nil env a loadInfo (fun _ _ => rfl) (fun _ _ => rfl)
  cases hw : a.warmup <;>
    simp [run_pipeline, pipelineTail, List.filterMap_append, hl,
      encodeEvs, reportEvs, hw, loadInfo]

/-- The measurement-loop observations of one pipeline run: nothing for a
warm-up run, its batch size for a measured run. -/
theorem pipeline_measObs (env : Env) (a : Args) :
    (run_pipeline env a).filterMap measObs =
      if a.warmup then [] else [MObs.run a.batchSize] := by
  have hl : (loopEvs env a).filterMap measObs = [] :=
    loop_filterMap_nil env a measObs (fun _ _ => rfl) (fun _ _ => rfl)
  cases hw : a.warmup <;>
    simp [run_pipeline, pipelineTail, List.filterMap_append, hl,
      encodeEvs, reportEvs, hw, measObs]

/-- One pipeline run contains exactly one `pipelineBegin`, carrying its
warmup flag. -/
theorem pipeline_flags (env : Env) (a : Args) :
    (run_pipeline env a).filterMap beginWarmupFlag = [a.warmup] := by
  have hl : (loopEvs env a).filterMap beginWarmupFlag = [] :=
    loop_filterMap_nil env a beginWarmupFlag (fun _ _ => rfl) (fun _ _ => rfl)
  cases hw : a.warmup <;>
    simp [run_pipeline, pipelineTail, List.filterMap_append, hl,
      encodeEvs, reportEvs, hw, beginWarmupFlag]

theorem pipeline_measBegin (env : Env) (a : Args) :
    (run_pipeline env a).filterMap measBeginInfo =
      if a.warmup then []
      else [(a.batchSize, a.prompt, a.negativePrompt)] := by
  have hl : (loopEvs env a).filterMap measBeginInfo = [] :=
    loop_filterMap_nil env a measBeginInfo (fun _ _ => rfl) (fun _ _ => rfl)
  cases hw : a.warmup <;>
    simp [run_pipeline, pipelineTail, List.filterMap_append, hl,
      encodeEvs, reportEvs, hw, measBeginInfo]

/-- Everything of `main`'s trace before the first pipeline run is exactly
the load phase. -/
theorem mainTrace_takeWhile (env : Env) (args : Args) :
    (mainTrace env args).takeWhile notBeginB = loadPhase env args := by
  have hload : ∀ a ∈ loadPhase env args, notBeginB a = true := by
    intro a ha
    simp only [loadPhase, List.mem_cons, List.not_mem_nil, or_false] at ha
    rcases ha with rfl | rfl | rfl | rfl | rfl | rfl <;> rfl
  have hrest : ((warmupPhase env args ++
      (batchSizes.map (measBlock env args)).flatten).takeWhile notBeginB) =
      [] := by
    cases hn : args.numWarmupRuns with
    | zero =>
        rw [warmupPhase, hn]
        show ((List.replicate 0 (run_pipeline env (warmupArgs args))).flatten
            ++ _).takeWhile notBeginB = []
        rw [List.replicate, List.flatten_nil, List.nil_append, batchSizes,
          List.map_cons, List.flatten_cons, measBlock, List.append_assoc]
        exact takeWhile_pipeline_head env _ _
    | succ n =>
        rw [warmupPhase, hn, List.replicate_succ, List.flatten_cons,
          List.append_assoc]
        exact takeWhile_pipeline_head env _ _
  rw [mainTrace, List.append_assoc, takeWhile_append_all hload, hrest,
    List.append_nil]

theorem filterMap_flatten_nil {α β : Type} (f : α → Option β) :
    ∀ L : List (List α), (∀ l ∈ L, l.filterMap f = []) →
      L.flatten.filterMap f = [] := by
  intro L
  induction L with
  | nil => intro _; rfl
  | cons a L ih =>
      intro h
      rw [List.flatten_cons, List.filterMap_append,
        h a (List.mem_cons_self a L),
        ih (fun l hl => h l (List.mem_cons_of_mem a hl))]
      rfl

/-- Tokenizer contract instantiated at every tokenizer call of one
pipeline run: the recorded ids have the text-batch length as leading
dimension and the requested padded length as trailing dimension. -/
theorem pipeline_tok (env : Env) (a : Args) (hE : EnvOK env) :
    ∀ texts maxL ids,
      Event.tokenizeCall texts maxL ids ∈ run_pipeline env a →
      ids.shape = [texts.length, maxL] := by
  intro texts maxL ids h
  rw [run_pipeline, pipelineTail] at h
  rcases List.mem_cons.mp h with h | h
  · simp at h
  rcases List.mem_append.mp h with h | h
  rcases List.mem_append.mp h with h | h
  rcases List.mem_append.mp h with h | h
  · simp only [encodeEvs, List.mem_cons, List.not_mem_nil, or_false] at h
    rcases h with h | h | h | h
    · obtain ⟨rfl, rfl, rfl⟩ := Event.tokenizeCall.inj h
      rw [textIds, astypeT_shape, hE.tok_shape]
    · simp at h
    · obtain ⟨rfl, rfl, rfl⟩ := Event.tokenizeCall.inj h
      rw [uncondIds, astypeT_shape, hE.tok_shape]
    · simp at h
  · rcases denoise_mem_shape env a _ _ _ h with ⟨i, o, he⟩ | ⟨n, si, he⟩ <;>
      simp at he
  · simp at h
  · cases hw : a.warmup <;> simp [reportEvs, hw] at h

/-- The three session loads of `main`, in order. -/
def threeLoads : List (Model × List Provider) :=
  [(Model.clip, providersList), (Model.unet, providersList),
   (Model.vae, providersList)]

/-- C3: `main` creates exactly three inference sessions — CLIP, UNet and
VAE, in that order — each with the provider list
`['TensorrtExecutionProvider', 'CUDAExecutionProvider']`, and all three
are created (and attached to `args`) before any pipeline run starts. -/
theorem sessions_loaded_before_any_run (env : Env) (args : Args) :
    (mainTrace env args).filterMap loadInfo = threeLoads ∧
    ((mainTrace env args).takeWhile notBeginB).filterMap loadInfo =
      threeLoads := by
  constructor
  · rw [mainTrace, List.filterMap_append, List.filterMap_append]
    have h1 : (loadPhase env args).filterMap loadInfo = threeLoads := rfl
    have h2 : (warmupPhase env args).filterMap loadInfo = [] := by
      apply filterMap_flatten_nil
      intro l hl
      rw [List.eq_of_mem_replicate hl, pipeline_no_load]
    have h3 : ((batchSizes.map (measBlock env args)).flatten).filterMap
        loadInfo = [] := by
      apply filterMap_flatten_nil
      intro l hl
      rcases List.mem_map.mp hl with ⟨bs, -, rfl⟩
      simp [measBlock, List.filterMap_append, List.filterMap_cons,
        pipeline_no_load, loadInfo]
    rw [h1, h2, h3, List.append_nil, List.append_nil]
  · rw [mainTrace_takeWhile]
    rfl

/-- C4: after warm-up, `main` measures exactly the batch sizes
1, 2, 4, 8, 16 in that order, and for each batch size it first runs the
pipeline once (latency) and then runs it once more inside
`measure_memory`. -/
theorem measured_batch_size_schedule (env : Env) (args : Args) :
    (mainTrace env args).filterMap measObs =
      (batchSizes.map (fun bs =>
        [MObs.run bs, MObs.mBeg, MObs.run bs, MObs.mEnd])).flatten := by
  rw [mainTrace, List.filterMap_append, List.filterMap_append]
  have h1 : (loadPhase env args).filterMap measObs = [] := rfl
  have h2 : (warmupPhase env args).filterMap measObs = [] := by
    apply filterMap_flatten_nil
    intro l hl
    rw [List.eq_of_mem_replicate hl, pipeline_measObs]
    rfl
  have hb : ∀ bs, (measBlock env args bs).filterMap measObs =
      [MObs.run bs, MObs.mBeg, MObs.run bs, MObs.mEnd] := by
    intro bs
    simp [measBlock, List.filterMap_append, List.filterMap_cons,
      pipeline_measObs, measArgs, measObs]
  have h3 : ((batchSizes.map (measBlock env args)).flatten).filterMap
      measObs =
      (batchSizes.map (fun bs =>
        [MObs.run bs, MObs.mBeg, MObs.run bs, MObs.mEnd])).flatten := by
    rw [filterMap_flatten, List.map_map]
    simp only [batchSizes, List.map_cons, List.map_nil, Function.comp_apply,
      hb]
  rw [h1, h2, h3, List.nil_append, List.nil_append]

/-- The three zero-filled dummy session runs of the load phase. -/
def dummyRuns (args : Args) : List (Model × List (String × Tens)) :=
  [(Model.clip, [⟨("input_ids"), clipDummyIn⟩]),
   (Model.unet, unetDummyIns args),
   (Model.vae, [⟨("latent"), vaeDummyIn args⟩])]

/-- C6: warm-up strictly precedes measurement: before the first pipeline
run, each of the three sessions has been run once on its zero-filled
dummy inputs of batch size 1; the pipeline runs `num_warmup_runs` times
with `args.warmup = True` before any measured run, and every subsequent
measured run has `args.warmup = False`. -/
theorem warmup_precedes_measurement (env : Env) (args : Args) :
    ((mainTrace env args).takeWhile notBeginB).filterMap runInfo =
      dummyRuns args ∧
    (mainTrace env args).filterMap beginWarmupFlag =
      List.replicate args.numWarmupRuns true ++ List.replicate 10 false := by
  constructor
  · rw [mainTrace_takeWhile]
    rfl
  · rw [mainTrace, List.filterMap_append, List.filterMap_append]
    have h1 : (loadPhase env args).filterMap beginWarmupFlag = [] := rfl
    have h2 : (warmupPhase env args).filterMap beginWarmupFlag =
        List.replicate args.numWarmupRuns true := by
      rw [warmupPhase, filterMap_flatten, List.map_replicate, pipeline_flags]
      exact flatten_replicate_singleton _ _
    have hb : ∀ bs, (measBlock env args bs).filterMap beginWarmupFlag =
        [false, false] := by
      intro bs
      simp [measBlock, List.filterMap_append, List.filterMap_cons,
        pipeline_flags, measArgs, beginWarmupFlag]
    have h3 : ((batchSizes.map (measBlock env args)).flatten).filterMap
        beginWarmupFlag = List.replicate 10 false := by
      rw [filterMap_flatten, List.map_map]
      have hmap : batchSizes.map
          ((fun l => l.filterMap beginWarmupFlag) ∘ measBlock env args) =
          List.replicate 5 [false, false] := by
        simp only [batchSizes, List.map_cons, List.map_nil,
          Function.comp_apply, hb]
        rfl
      rw [hmap]
      rfl
    rw [h1, h2, h3, List.nil_append]

/-- C10: every measured run of batch size `bs` executes with
`args.prompt` equal to `bs` copies of the original `--prompt` string and
`args.negative_prompt` equal to the original negative-prompt list repeated
`bs` times (two such runs per batch size: latency and memory); and every
tokenizer call of the whole execution produces an ids batch whose leading
dimension is the number of texts — so the tokenized prompt batch dimension
equals the measured batch size. -/
theorem measured_prompt_replication (env : Env) (args : Args) (s : String)
    (hE : EnvOK env) (hs : args.prompt = PromptV.str s) :
    (mainTrace env args).filterMap measBeginInfo =
      (batchSizes.map (fun bs =>
        List.replicate 2 (bs, PromptV.list (List.replicate bs s),
          listRep bs args.negativePrompt))).flatten ∧
    (∀ texts maxL ids,
      Event.tokenizeCall texts maxL ids ∈ mainTrace env args →
      ids.shape = [texts.length, maxL]) := by
  constructor
  · rw [mainTrace, List.filterMap_append, List.filterMap_append]
    have h1 : (loadPhase env args).filterMap measBeginInfo = [] := rfl
    have h2 : (warmupPhase env args).filterMap measBeginInfo = [] := by
      apply filterMap_flatten_nil
      intro l hl
      rw [List.eq_of_mem_replicate hl, pipeline_measBegin]
      rfl
    have hb : ∀ bs, (measBlock env args bs).filterMap measBeginInfo =
        List.replicate 2 (bs, PromptV.list (List.replicate bs s),
          listRep bs args.negativePrompt) := by
      intro bs
      simp [measBlock, List.filterMap_append, List.filterMap_cons,
        pipeline_measBegin, measArgs, measBeginInfo, hs, pvStr,
        List.replicate]
    have h3 : ((batchSizes.map (measBlock env args)).flatten).filterMap
        measBeginInfo =
        (batchSizes.map (fun bs =>
          List.replicate 2 (bs, PromptV.list (List.replicate bs s),
            listRep bs args.negativePrompt))).flatten := by
      rw [filterMap_flatten, List.map_map]
      simp only [batchSizes, List.map_cons, List.map_nil,
        Function.comp_apply, hb]
    rw [h1, h2, h3, List.nil_append, List.nil_append]
  · intro texts maxL ids h
    rw [mainTrace] at h
    rcases List.mem_append.mp h with h | h
    rcases List.mem_append.mp h with h | h
    · simp [loadPhase] at h
    · rw [warmupPhase] at h
      rcases List.mem_flatten.mp h with ⟨l, hl, hel⟩
      rw [List.eq_of_mem_replicate hl] at hel
      exact pipeline_tok env _ hE texts maxL ids hel
    · rcases List.mem_flatten.mp h with ⟨l, hl, hel⟩
      rcases List.mem_map.mp hl with ⟨bs, -, rfl⟩
      rw [measBlock] at hel
      rcases List.mem_append.mp hel with hel | hel
      · exact pipeline_tok env _ hE texts maxL ids hel
      · rcases List.mem_cons.mp hel with hel | hel
        · simp at hel
        · rcases List.mem_append.mp hel with hel | hel
          · exact pipeline_tok env _ hE texts maxL ids hel
          · simp at hel

/-- Witness for C10 on the concrete environment and arguments. -/
theorem measured_prompt_replication_witness :
    (mainTrace env0 args0).filterMap measBeginInfo =
      (batchSizes.map (fun bs =>
        List.replicate 2 (bs, PromptV.list (List.replicate bs promptStr0),
          listRep bs args0.negativePrompt))).flatten ∧
    (∀ texts maxL ids,
      Event.tokenizeCall texts maxL ids ∈ mainTrace env0 args0 →
      ids.shape = [texts.length, maxL]) :=
  measured_prompt_replication env0 args0 promptStr0 envOK0 rfl

end OrtTrt
